import Mathlib

/-!
Verification of the flame-chart core: data flattening, adaptive
time-clustering, viewport/coordinate engine and hover dispatch.

The definitions below are a shallow embedding of the corresponding
JavaScript functions of the library (flame-chart-js v2.3.1).  JavaScript
numbers are modelled as rationals (`ℚ`), optional string fields as
`Option String`, and the imperative `reduce`-with-push loops as folds over
lists.  Fields and functions keep the source names wherever Lean allows
it (`end` is a Lean keyword, so that field is called `end_`).
-/

/-- Constant `MIN_BLOCK_SIZE = 1` from the clustering module. -/
def MIN_BLOCK_SIZE : ℚ := 1

/-- Constant `STICK_DISTANCE = 0.25` from the clustering module. -/
def STICK_DISTANCE : ℚ := 0.25

/-- Constant `MIN_CLUSTER_SIZE = MIN_BLOCK_SIZE * 2 + STICK_DISTANCE`. -/
def MIN_CLUSTER_SIZE : ℚ := MIN_BLOCK_SIZE * 2 + STICK_DISTANCE

/-- Own fields of an input interval (`FlameChartNode` in the source):
`{name, start, duration, type?, color?}`.  The `children` list lives in
`FlameChartNode` below. -/
structure NodeData where
  name : String
  start : ℚ
  duration : ℚ
  type : Option String
  color : Option String
deriving DecidableEq, Repr

/-- An input interval tree node: own data plus the `children` array. -/
inductive FlameChartNode where
  | node (data : NodeData) (children : List FlameChartNode)

/-- Accessor for a tree node's own fields. -/
def FlameChartNode.data : FlameChartNode → NodeData
  | .node d _ => d

/-- Accessor for a tree node's `children` array (absent = empty list). -/
def FlameChartNode.children : FlameChartNode → List FlameChartNode
  | .node _ cs => cs

/-- A flattened node (`FlatTreeNode` in the source):
`{source, end: start + duration, parent, level, index}`.
The `source` back-reference keeps the interval's own fields; the
`parent` back-pointer of the source is omitted here because no verified
property mentions it. -/
structure FlatTreeNode where
  source : NodeData
  end_ : ℚ
  level : ℕ
  index : ℕ
deriving DecidableEq, Repr

/-- Depth-first traversal of `walk(treeList, cb, parent, level)`: it calls
the callback on each node in preorder, descending with `level + 1`.  The
embedding returns the visited `(own data, level)` pairs in callback order. -/
def walk : List FlameChartNode → ℕ → List (NodeData × ℕ)
  | [], _ => []
  | FlameChartNode.node d cs :: rest, level =>
      (d, level) :: (walk cs (level + 1) ++ walk rest level)

/-- The comparator of `flatTree`'s final sort,
`(a, b) => a.level - b.level || a.source.start - b.source.start`, read as
the total preorder it sorts by. -/
def flatTreeOrder (a b : FlatTreeNode) : Prop :=
  a.level < b.level ∨ (a.level = b.level ∧ a.source.start ≤ b.source.start)

instance : DecidableRel flatTreeOrder := fun a b => by
  unfold flatTreeOrder; infer_instance

instance : IsTotal FlatTreeNode flatTreeOrder where
  total a b := by
    unfold flatTreeOrder
    rcases Nat.lt_trichotomy a.level b.level with h | h | h
    · exact Or.inl (Or.inl h)
    · rcases le_total a.source.start b.source.start with h2 | h2
      · exact Or.inl (Or.inr ⟨h, h2⟩)
      · exact Or.inr (Or.inr ⟨h.symm, h2⟩)
    · exact Or.inr (Or.inl h)

instance : IsTrans FlatTreeNode flatTreeOrder where
  trans a b c hab hbc := by
    unfold flatTreeOrder at *
    rcases hab with h | ⟨h, h2⟩ <;> rcases hbc with h3 | ⟨h3, h4⟩
    · exact Or.inl (h.trans h3)
    · exact Or.inl (h3 ▸ h)
    · exact Or.inl (h ▸ h3)
    · exact Or.inr ⟨h.trans h3, h2.trans h4⟩

/-- `flatTree(treeList)`: walk the forest assigning
`end = start + duration` and `index` in visitation order, then sort by
`(level, source.start)`.  The anonymous-object construction of the source
is the `FlatTreeNode` literal; the JavaScript `Array.prototype.sort` with a
consistent comparator is modelled by insertion sort over `flatTreeOrder`
(any sorted permutation; the verified properties do not depend on the
order of ties). -/
def flatTree (treeList : List FlameChartNode) : List FlatTreeNode :=
  let visited := (walk treeList 0).enum
  let result := visited.map fun p =>
    { source := p.2.1
      end_ := p.2.1.start + p.2.1.duration
      level := p.2.2
      index := p.1 }
  List.insertionSort flatTreeOrder result

/-- `getFlatTreeMinMax(flatTree)`: single pass taking the least `start`
and the greatest `end`; `{0, 0}` for empty input.  The source's
`isFirst` seeding is the fold over the tail starting from the head. -/
def getFlatTreeMinMax (flatTreeNodes : List FlatTreeNode) : ℚ × ℚ :=
  match flatTreeNodes with
  | [] => (0, 0)
  | first :: rest =>
      rest.foldl
        (fun acc n =>
          ((if acc.1 < n.source.start then acc.1 else n.source.start),
           (if acc.2 > n.end_ then acc.2 else n.end_)))
        (first.source.start, first.end_)

/-- Fallback node for the (unreached) empty-list case of the cluster
constructors; the source would read `undefined` there. -/
def defaultFlatTreeNode : FlatTreeNode :=
  { source := { name := "", start := 0, duration := 0, type := none, color := none }
    end_ := 0, level := 0, index := 0 }

/-- `calcClusterDuration(nodes) = last.start + last.duration - first.start`
(`nodes` is never empty at the call sites). -/
def calcClusterDuration (nodes : List FlatTreeNode) : ℚ :=
  let firstNode := nodes.head?.getD defaultFlatTreeNode
  let lastNode := nodes.getLast?.getD defaultFlatTreeNode
  lastNode.source.start + lastNode.source.duration - firstNode.source.start

/-- `checkNodeTimeboundNesting(node, start, end)`: the node's time range
overlaps, or is strictly inside, the window `[start, end]`. -/
def checkNodeTimeboundNesting (node : FlatTreeNode) (start end_ : ℚ) : Bool :=
  decide ((node.source.start < end_ ∧ node.end_ > start) ∨
          (node.source.start > start ∧ node.end_ < end_))

/-- `defaultClusterizeCondition(prevNode, node)`: equal `color` and equal
`type` of the sources. -/
def defaultClusterizeCondition (prevNode node : FlatTreeNode) : Bool :=
  prevNode.source.color == node.source.color &&
    prevNode.source.type == node.source.type

/-- One step of the grouping `reduce` shared by `metaClusterizeFlatTree`
and `clusterizeFlatTree`: the accumulator is kept in reverse (the open
cluster first, itself reversed, so the source's `last(acc)` /
`last(lastCluster)` are the heads and its `push` is `cons`).  The node
joins the open cluster exactly when `p lastNode node` holds, otherwise a
fresh cluster `[node]` is pushed. -/
def groupStep (p : α → α → Bool) (acc : List (List α)) (node : α) :
    List (List α) :=
  match acc with
  | (lastNode :: clusterRest) :: rest =>
      if p lastNode node then (node :: lastNode :: clusterRest) :: rest
      else [node] :: (lastNode :: clusterRest) :: rest
  | _ => [node] :: acc

/-- The whole grouping `reduce` over `p`, undoing the reversed encoding at
the end: the resulting clusters are in creation order, each in insertion
order. -/
def groupRuns (p : α → α → Bool) (l : List α) : List (List α) :=
  ((l.foldl (groupStep p) []).reverse).map List.reverse

/-- A meta cluster (`MetaClusterizedFlatTreeNode`): `{ nodes }`. -/
structure MetaClusterizedFlatTreeNode where
  nodes : List FlatTreeNode
deriving DecidableEq, Repr

/-- `metaClusterizeFlatTree(flatTree, condition)`: group the flat sequence
into maximal runs whose adjacent members are on one level and satisfy
`condition`, drop empty groups (there are none) and wrap each in
`{ nodes }`. -/
def metaClusterizeFlatTree (flatTreeNodes : List FlatTreeNode)
    (condition : FlatTreeNode → FlatTreeNode → Bool) :
    List MetaClusterizedFlatTreeNode :=
  (((groupRuns
        (fun lastNode node =>
          lastNode.level == node.level && condition lastNode node)
        flatTreeNodes)).filter
      (fun nodes => !nodes.isEmpty)).map
    (fun nodes => { nodes := nodes })

/-- A render cluster (`ClusterizedFlatTreeNode`):
`{start, end, duration, type, color, level, nodes}`. -/
structure ClusterizedFlatTreeNode where
  start : ℚ
  end_ : ℚ
  duration : ℚ
  type : Option String
  color : Option String
  level : ℕ
  nodes : List FlatTreeNode
deriving DecidableEq, Repr

/-- The `.map` closing `clusterizeFlatTree`: a cluster record from its
member run (`node = nodes[0]`). -/
def mkClusterNode (nodes : List FlatTreeNode) : ClusterizedFlatTreeNode :=
  let node := nodes.head?.getD defaultFlatTreeNode
  let duration := calcClusterDuration nodes
  { start := node.source.start
    end_ := node.source.start + duration
    duration := duration
    type := node.source.type
    color := node.source.color
    level := node.level
    nodes := nodes }

/-- The merge test of `clusterizeFlatTree`'s inner loop: the pixel gap to
the previous node is under `stickDistance` and both nodes' pixel widths
are under `minBlockSize`. -/
def mergeCondition (zoom stickDistance minBlockSize : ℚ)
    (lastNode node : FlatTreeNode) : Bool :=
  decide ((node.source.start -
            (lastNode.source.start + lastNode.source.duration)) * zoom <
          stickDistance) &&
    decide (node.source.duration * zoom < minBlockSize) &&
    decide (lastNode.source.duration * zoom < minBlockSize)

/-- `clusterizeFlatTree(metaClusterizedFlatTree, zoom, start, end,
stickDistance, minBlockSize)`: per meta cluster (the source resets
`lastCluster`/`lastNode` at each), scan the nodes, skipping those outside
the window, grouping the visible ones greedily by `mergeCondition`, then
turn every group into a cluster record. -/
def clusterizeFlatTree (metaClusterizedFlatTree : List MetaClusterizedFlatTreeNode)
    (zoom start end_ stickDistance minBlockSize : ℚ) :
    List ClusterizedFlatTreeNode :=
  ((metaClusterizedFlatTree.map fun mc =>
      ((mc.nodes.foldl
          (fun acc node =>
            if checkNodeTimeboundNesting node start end_ then
              groupStep (mergeCondition zoom stickDistance minBlockSize) acc node
            else acc)
          []).reverse).map List.reverse).flatten).map mkClusterNode

/-- `checkClusterTimeboundNesting(node, start, end)`: same window test on
a cluster record's own `start`/`end`. -/
def checkClusterTimeboundNesting (node : ClusterizedFlatTreeNode)
    (start end_ : ℚ) : Bool :=
  decide ((node.start < end_ ∧ node.end_ > start) ∨
          (node.start > start ∧ node.end_ < end_))

/-- `reclusterizeClusteredFlatTree(clusteredFlatTree, zoom, start, end,
stickDistance, minBlockSize)`: drop clusters outside the window; keep a
cluster as-is while `duration * zoom <= MIN_CLUSTER_SIZE`, otherwise
re-run `clusterizeFlatTree` over that cluster alone (a cluster record
serves as the meta cluster via its `nodes` field). -/
def reclusterizeClusteredFlatTree (clusteredFlatTree : List ClusterizedFlatTreeNode)
    (zoom start end_ stickDistance minBlockSize : ℚ) :
    List ClusterizedFlatTreeNode :=
  clusteredFlatTree.foldl
    (fun acc cluster =>
      if checkClusterTimeboundNesting cluster start end_ then
        if cluster.duration * zoom ≤ MIN_CLUSTER_SIZE then acc ++ [cluster]
        else acc ++ clusterizeFlatTree [{ nodes := cluster.nodes }] zoom start
          end_ stickDistance minBlockSize
      else acc)
    []

/-- The viewport-relevant state of `BasicRenderEngine`:
`{width, height, positionX, zoom, min, max}` (drawing caches and style
fields are omitted; no verified property mentions them). -/
structure BasicRenderEngineState where
  width : ℚ
  height : ℚ
  positionX : ℚ
  zoom : ℚ
  min : ℚ
  max : ℚ
deriving DecidableEq, Repr

/-- `BasicRenderEngine.timeToPosition(time) = time * zoom - positionX * zoom`. -/
def timeToPosition (st : BasicRenderEngineState) (time : ℚ) : ℚ :=
  time * st.zoom - st.positionX * st.zoom

/-- `BasicRenderEngine.pixelToTime(width) = width / zoom`. -/
def pixelToTime (st : BasicRenderEngineState) (width : ℚ) : ℚ :=
  width / st.zoom

/-- `BasicRenderEngine.setPositionX(x)` (the returned delta is dropped;
only the state update matters here). -/
def setPositionX (st : BasicRenderEngineState) (x : ℚ) : BasicRenderEngineState :=
  { st with positionX := x }

/-- `BasicRenderEngine.getRealView() = width / zoom`. -/
def getRealView (st : BasicRenderEngineState) : ℚ :=
  st.width / st.zoom

/-- `BasicRenderEngine.getInitialZoom()`: `width / (max - min)` when the
extent is positive, `1` otherwise. -/
def getInitialZoom (st : BasicRenderEngineState) : ℚ :=
  if st.max - st.min > 0 then st.width / (st.max - st.min) else 1

/-- `BasicRenderEngine.tryToChangePosition(positionDelta)`: apply the full
delta when the moved window stays inside `[min, max]`, else clamp
`positionX` to `min` or to `max - realView`. -/
def tryToChangePosition (st : BasicRenderEngineState) (positionDelta : ℚ) :
    BasicRenderEngineState :=
  let realView := getRealView st
  if st.positionX + positionDelta + realView ≤ st.max ∧
      st.positionX + positionDelta ≥ st.min then
    setPositionX st (st.positionX + positionDelta)
  else if st.positionX + positionDelta ≤ st.min then
    setPositionX st st.min
  else if st.positionX + positionDelta + realView ≥ st.max then
    setPositionX st (st.max - realView)
  else st

/-- Constant `MAX_ACCURACY = 6` guarding `RenderEngine.setZoom`. -/
def MAX_ACCURACY : ℕ := 6

/-- The state of `RenderEngine` on top of its `BasicRenderEngine` base:
the base viewport plus the time grid's current `accuracy` (read through
`getAccuracy()`).  Child engines receive copies of the zoom and are not
modelled separately. -/
structure RenderEngineState where
  base : BasicRenderEngineState
  accuracy : ℕ
deriving DecidableEq, Repr

/-- `RenderEngine.getAccuracy() = timeGrid.accuracy`. -/
def getAccuracy (st : RenderEngineState) : ℕ :=
  st.accuracy

/-- `RenderEngine.setZoom(zoom)`: accepted (and the zoom stored) when
`getAccuracy() < MAX_ACCURACY || zoom <= this.zoom`, returning `true`;
otherwise a rejected no-op returning `false`. -/
def RenderEngine.setZoom (st : RenderEngineState) (zoom : ℚ) :
    Bool × RenderEngineState :=
  if getAccuracy st < MAX_ACCURACY ∨ zoom ≤ st.base.zoom then
    (true, { st with base := { st.base with zoom := zoom } })
  else
    (false, st)

/-- The data-derived state of `FlameChartPlugin`: the held input forest,
its flattening, the extent, and the three clusterization stages.
Rendering and colour caches are omitted; `positionY` is kept because
`reset()` writes it. -/
structure FlameChartPluginState where
  data : List FlameChartNode
  flatTree : List FlatTreeNode
  min : ℚ
  max : ℚ
  positionY : ℚ
  metaClusterizedFlatTree : List MetaClusterizedFlatTreeNode
  initialClusterizedFlatTree : List ClusterizedFlatTreeNode
  actualClusterizedFlatTree : List ClusterizedFlatTreeNode

/-- `FlameChartPlugin.parseData()`: rebuild `flatTree` from `data` and
store the extent (`calcMinMax` via `getFlatTreeMinMax`). -/
def FlameChartPlugin.parseData (st : FlameChartPluginState) :
    FlameChartPluginState :=
  let ft := flatTree st.data
  let mm := getFlatTreeMinMax ft
  { st with flatTree := ft, min := mm.1, max := mm.2 }

/-- `FlameChartPlugin.initData()` followed by the
`reclusterizeClusteredFlatTree()` method: meta-clusterize with the
default condition, clusterize over the full extent at the engine's zoom
(stick distance and minimum block size left at their defaults), then
re-clusterize for the visible window `[positionX, positionX + realView]`. -/
def FlameChartPlugin.initData (st : FlameChartPluginState)
    (renderEngine : BasicRenderEngineState) : FlameChartPluginState :=
  let meta := metaClusterizeFlatTree st.flatTree defaultClusterizeCondition
  let initial := clusterizeFlatTree meta renderEngine.zoom st.min st.max
    STICK_DISTANCE MIN_BLOCK_SIZE
  let actual := reclusterizeClusteredFlatTree initial renderEngine.zoom
    renderEngine.positionX (renderEngine.positionX + getRealView renderEngine)
    STICK_DISTANCE MIN_BLOCK_SIZE
  { st with
      metaClusterizedFlatTree := meta
      initialClusterizedFlatTree := initial
      actualClusterizedFlatTree := actual }

/-- `FlameChartPlugin.reset()` (the colour cache and selection it clears
are not part of the modelled state; the `positionY` write is). -/
def FlameChartPlugin.reset (st : FlameChartPluginState) :
    FlameChartPluginState :=
  { st with positionY := 0 }

/-- `FlameChartPlugin.setData(data)`: store the new forest, then
`parseData()`, `initData()`, `reset()`.  The trailing
`renderEngine.recalcMinMax()` / `resetParentView()` calls only touch the
render engine and are omitted.  Note there is no validation and no
failure result: every input is accepted unconditionally. -/
def FlameChartPlugin.setData (st : FlameChartPluginState)
    (data : List FlameChartNode) (renderEngine : BasicRenderEngineState) :
    FlameChartPluginState :=
  FlameChartPlugin.reset
    (FlameChartPlugin.initData
      (FlameChartPlugin.parseData { st with data := data }) renderEngine)

/-- A hit region (`HitRegion` in the source):
`{type, data, x, y, w, h, cursor?, id?}`.  The `any`-typed payload is
modelled as an opaque numeric tag. -/
structure HitRegion where
  type : String
  data : ℕ
  x : ℚ
  y : ℚ
  w : ℚ
  h : ℚ
  cursor : Option String
  id : ℕ
deriving DecidableEq, Repr

/-- `SeparatedInteractionsEngine.addHitRegion(type, data, x, y, w, h,
cursor)`: pushes a region stamped with the engine instance's `id`. -/
def SeparatedInteractionsEngine.addHitRegion (hitRegions : List HitRegion)
    (instanceId : ℕ) (type : String) (data : ℕ) (x y w h : ℚ)
    (cursor : Option String) : List HitRegion :=
  hitRegions ++ [{ type := type, data := data, x := x, y := y, w := w,
                   h := h, cursor := cursor, id := instanceId }]

/-- `InteractionsEngine.checkRegionHover()`, taking the previously stored
`this.hoveredRegion` and the freshly resolved `getHoveredRegion()` result,
returning the `hover` events emitted (in order) and the new stored region:
when both regions exist and their `id`s differ, `hover(null)` is emitted
first; a resolved region is then emitted and stored; with no resolved
region but a stored one, `hover(null)` is emitted and the store cleared;
otherwise nothing happens.  Cursor updates and `partialRender` calls are
omitted; they emit nothing. -/
def checkRegionHover (hoveredRegion resolved : Option HitRegion) :
    List (Option HitRegion) × Option HitRegion :=
  match resolved, hoveredRegion with
  | some hr, some cur =>
      if hr.id ≠ cur.id then ([none, some hr], some hr)
      else ([some hr], some hr)
  | some hr, none => ([some hr], some hr)
  | none, some _ => ([none], none)
  | none, none => ([], none)

/-- The stream of `hover` events emitted by successive
`checkRegionHover` calls, threading the stored region from call to call. -/
def hoverEmissions (hoveredRegion : Option HitRegion) :
    List (Option HitRegion) → List (Option HitRegion)
  | [] => []
  | resolved :: rest =>
      (checkRegionHover hoveredRegion resolved).1 ++
        hoverEmissions (checkRegionHover hoveredRegion resolved).2 rest

/-- `t` sits at depth `d` of the input forest: roots are at depth `0` and
each child one deeper than its parent. -/
inductive TreeAtDepth : List FlameChartNode → ℕ → FlameChartNode → Prop where
  | root {forest : List FlameChartNode} {t : FlameChartNode} :
      t ∈ forest → TreeAtDepth forest 0 t
  | child {forest : List FlameChartNode} {d : ℕ} {t c : FlameChartNode} :
      TreeAtDepth forest d t → c ∈ t.children → TreeAtDepth forest (d + 1) c

/-- Flattened contents of the reversed cluster accumulator used inside the
grouping folds (clusters reversed, newest first). -/
def runsFlatten (acc : List (List α)) : List α :=
  ((acc.reverse).map List.reverse).flatten

/-- The relation holding between two consecutive produced clusters: the
merge test fails between the last node of the one and the first node of
the next (otherwise they would have been one cluster). -/
def BoundaryFail (p : α → α → Bool) (r1 r2 : List α) : Prop :=
  ∀ a b, r1.getLast? = some a → r2.head? = some b → p a b = false

/-- Two adjacent emissions in a hover stream never carry regions with
distinct `id`s (a `hover(null)` separates those). -/
def adjSameId (e1 e2 : Option HitRegion) : Prop :=
  ∀ r1 r2, e1 = some r1 → e2 = some r2 → r1.id = r2.id

/-- Test fixture: a level-0 node spanning `[0, 10]`. -/
def nodeA : FlatTreeNode :=
  { source := { name := "", start := 0, duration := 10, type := none, color := none }
    end_ := 10, level := 0, index := 0 }

/-- Test fixture: a level-0 node spanning `[20, 30]`. -/
def nodeB : FlatTreeNode :=
  { source := { name := "", start := 20, duration := 10, type := none, color := none }
    end_ := 30, level := 0, index := 1 }

/-- Test fixture: the cluster holding `nodeA` and `nodeB`. -/
def clusterAB : ClusterizedFlatTreeNode := mkClusterNode [nodeA, nodeB]

/-- Test fixture: a well-formed input interval starting at 100. -/
def goodNode : FlameChartNode :=
  .node { name := "", start := 100, duration := 5, type := none, color := none } []

/-- Test fixture: a malformed input interval with negative duration. -/
def badNode : FlameChartNode :=
  .node { name := "", start := 0, duration := -5, type := none, color := none } []

/-- Test fixture: an empty plugin state. -/
def emptyPluginState : FlameChartPluginState :=
  { data := [], flatTree := [], min := 0, max := 0, positionY := 0
    metaClusterizedFlatTree := [], initialClusterizedFlatTree := []
    actualClusterizedFlatTree := [] }

/-- Test fixture: a viewport with `positionX = 1`, `zoom = 2` over `[0, 10]`. -/
def stC2 : BasicRenderEngineState :=
  { width := 100, height := 100, positionX := 1, zoom := 2, min := 0, max := 10 }

/-- Test fixture: a viewport with `zoom = 10` over `[0, 100]` (so
`realView = 10`). -/
def stC5 : BasicRenderEngineState :=
  { width := 100, height := 0, positionX := 0, zoom := 10, min := 0, max := 100 }

/-- Test fixture: a render engine sitting exactly at its initial zoom
(`width/(max-min) = 10`), grid accuracy still `0`. -/
def stC9 : RenderEngineState :=
  { base := { width := 100, height := 0, positionX := 0, zoom := 10, min := 0, max := 10 }
    accuracy := 0 }

/-- Test fixture: a hit region of panel instance `1` with payload `0`. -/
def regionA : HitRegion :=
  { type := "cluster", data := 0, x := 0, y := 0, w := 10, h := 10
    cursor := none, id := 1 }

/-- Test fixture: a different hit region of the same panel instance `1`. -/
def regionB : HitRegion :=
  { type := "cluster", data := 1, x := 30, y := 0, w := 10, h := 10
    cursor := none, id := 1 }

/-- Test fixture: a hit region of a different panel instance `2`. -/
def regionC : HitRegion :=
  { type := "cluster", data := 2, x := 50, y := 0, w := 10, h := 10
    cursor := none, id := 2 }

/-- Test fixture: a two-level input forest. -/
def forestW : List FlameChartNode :=
  [.node { name := "", start := 0, duration := 5, type := none, color := none }
    [.node { name := "", start := 1, duration := 2, type := none, color := none } []]]

/-- Test fixture: the meta cluster over `nodeA` and `nodeB`. -/
def mcW : MetaClusterizedFlatTreeNode := { nodes := [nodeA, nodeB] }

/-! Helper lemmas about the grouping fold shared by the clusterizers. -/

theorem groupStep_not_nil (p : α → α → Bool) (acc : List (List α)) (node : α)
    (h : [] ∉ acc) : [] ∉ groupStep p acc node := by
  cases acc with
  | nil => simp [groupStep]
  | cons c rest =>
    cases c with
    | nil => exact absurd (List.mem_cons_self _ _) h
    | cons lastNode clusterRest =>
      by_cases hp : p lastNode node <;> simp_all [groupStep]

theorem groupStep_flatten (p : α → α → Bool) (acc : List (List α)) (node : α) :
    runsFlatten (groupStep p acc node) = runsFlatten acc ++ [node] := by
  cases acc with
  | nil => simp [groupStep, runsFlatten]
  | cons c rest =>
    cases c with
    | nil => simp [groupStep, runsFlatten]
    | cons lastNode clusterRest =>
      by_cases hp : p lastNode node <;> simp [groupStep, hp, runsFlatten]

theorem groupStep_chains (p : α → α → Bool) (acc : List (List α)) (node : α)
    (h : ∀ c ∈ acc, List.Chain' (fun a b => p a b = true) c.reverse) :
    ∀ c ∈ groupStep p acc node, List.Chain' (fun a b => p a b = true) c.reverse := by
  cases acc with
  | nil =>
    intro c hc
    simp only [groupStep, List.mem_singleton] at hc
    simp [hc]
  | cons c0 rest =>
    cases c0 with
    | nil =>
      intro c hc
      simp only [groupStep, List.mem_cons] at hc
      rcases hc with rfl | rfl | hc
      · simp
      · simp
      · exact h c (List.mem_cons_of_mem _ hc)
    | cons lastNode clusterRest =>
      by_cases hp : p lastNode node
      · intro c hc
        simp only [groupStep, if_pos hp, List.mem_cons] at hc
        rcases hc with rfl | hc
        · rw [List.reverse_cons, List.chain'_append]
          refine ⟨h _ (List.mem_cons_self _ _), List.chain'_singleton _, ?_⟩
          intro x hx y hy
          rw [List.getLast?_reverse] at hx
          simp only [List.head?_cons, Option.mem_def, Option.some.injEq] at hx hy
          subst hx; subst hy; exact hp
        · exact h c (List.mem_cons_of_mem _ hc)
      · intro c hc
        simp only [groupStep, if_neg hp, List.mem_cons] at hc
        rcases hc with rfl | rfl | hc
        · simp
        · exact h _ (List.mem_cons_self _ _)
        · exact h c (List.mem_cons_of_mem _ hc)

theorem groupStep_bounds (p : α → α → Bool) (acc : List (List α)) (node : α)
    (hne : [] ∉ acc)
    (hb : List.Chain' (fun c2 c1 => BoundaryFail p c1.reverse c2.reverse) acc) :
    List.Chain' (fun c2 c1 => BoundaryFail p c1.reverse c2.reverse)
      (groupStep p acc node) := by
  cases acc with
  | nil => simp [groupStep]
  | cons c0 rest =>
    cases c0 with
    | nil => exact absurd (List.mem_cons_self _ _) hne
    | cons lastNode clusterRest =>
      rw [List.chain'_cons'] at hb
      by_cases hp : p lastNode node
      · simp only [groupStep, if_pos hp]
        rw [List.chain'_cons']
        refine ⟨?_, hb.2⟩
        intro y hy
        intro a b ha hb2
        refine hb.1 y hy a b ha ?_
        rw [List.head?_reverse] at hb2 ⊢
        rwa [List.getLast?_cons_cons] at hb2
      · simp only [groupStep, if_neg hp]
        rw [List.chain'_cons']
        refine ⟨?_, List.chain'_cons'.mpr hb⟩
        intro y hy
        simp only [List.head?_cons, Option.mem_def, Option.some.injEq] at hy
        subst hy
        intro a b ha hb2
        rw [List.getLast?_reverse] at ha
        simp only [List.head?_cons, Option.mem_def, Option.some.injEq] at ha
        simp only [List.reverse_singleton, List.head?_cons,
          Option.some.injEq] at hb2
        subst ha; subst hb2
        simpa using hp

theorem groupFold_inv (p : α → α → Bool) (l : List α) :
    ∀ acc : List (List α), [] ∉ acc →
      (∀ c ∈ acc, List.Chain' (fun a b => p a b = true) c.reverse) →
      List.Chain' (fun c2 c1 => BoundaryFail p c1.reverse c2.reverse) acc →
      [] ∉ l.foldl (groupStep p) acc ∧
        (∀ c ∈ l.foldl (groupStep p) acc,
          List.Chain' (fun a b => p a b = true) c.reverse) ∧
        List.Chain' (fun c2 c1 => BoundaryFail p c1.reverse c2.reverse)
          (l.foldl (groupStep p) acc) ∧
        runsFlatten (l.foldl (groupStep p) acc) = runsFlatten acc ++ l := by
  induction l with
  | nil =>
    intro acc h1 h2 h3
    simpa using ⟨h1, h2, h3⟩
  | cons x xs ih =>
    intro acc h1 h2 h3
    obtain ⟨a1, a2, a3, a4⟩ :=
      ih (groupStep p acc x) (groupStep_not_nil p acc x h1)
        (groupStep_chains p acc x h2) (groupStep_bounds p acc x h1 h3)
    refine ⟨by simpa using a1, by simpa using a2, by simpa using a3, ?_⟩
    rw [List.foldl_cons, a4, groupStep_flatten]
    simp

theorem groupRuns_spec (p : α → α → Bool) (l : List α) :
    (groupRuns p l).flatten = l ∧
      (∀ r ∈ groupRuns p l,
        r ≠ [] ∧ List.Chain' (fun a b => p a b = true) r) ∧
      List.Chain' (BoundaryFail p) (groupRuns p l) := by
  obtain ⟨h1, h2, h3, h4⟩ :=
    groupFold_inv p l [] (by simp) (by simp) (by simp)
  refine ⟨?_, ?_, ?_⟩
  · show runsFlatten (l.foldl (groupStep p) []) = l
    simpa [runsFlatten] using h4
  · intro r hr
    simp only [groupRuns, List.mem_map, List.mem_reverse] at hr
    obtain ⟨c, hc, rfl⟩ := hr
    refine ⟨?_, h2 c hc⟩
    intro h
    rw [List.reverse_eq_nil_iff] at h
    exact h1 (h ▸ hc)
  · unfold groupRuns
    rw [List.chain'_map, List.chain'_reverse]
    exact h3

theorem foldl_guarded_eq_foldl_filter (q : α → Bool) (f : β → α → β)
    (l : List α) :
    ∀ init : β,
      l.foldl (fun acc node => if q node then f acc node else acc) init =
        (l.filter q).foldl f init := by
  induction l with
  | nil => intro init; rfl
  | cons x xs ih =>
    intro init
    by_cases hq : q x <;> simp [hq, ih]

theorem clusterizeFlatTree_single (mc : MetaClusterizedFlatTreeNode)
    (zoom start end_ stickDistance minBlockSize : ℚ) :
    clusterizeFlatTree [mc] zoom start end_ stickDistance minBlockSize =
      (groupRuns (mergeCondition zoom stickDistance minBlockSize)
        (mc.nodes.filter
          (fun n => checkNodeTimeboundNesting n start end_))).map
        mkClusterNode := by
  unfold clusterizeFlatTree groupRuns
  simp only [List.map_cons, List.map_nil, List.flatten_cons, List.flatten_nil,
    List.append_nil]
  rw [foldl_guarded_eq_foldl_filter]

theorem mkClusterNode_nodes (nodes : List FlatTreeNode) :
    (mkClusterNode nodes).nodes = nodes := rfl

theorem mkClusterNode_fields (nodes : List FlatTreeNode) (f l : FlatTreeNode)
    (hf : nodes.head? = some f) (hl : nodes.getLast? = some l) :
    (mkClusterNode nodes).start = f.source.start ∧
      (mkClusterNode nodes).duration =
        l.source.start + l.source.duration - f.source.start ∧
      (mkClusterNode nodes).end_ =
        (mkClusterNode nodes).start + (mkClusterNode nodes).duration := by
  simp [mkClusterNode, calcClusterDuration, hf, hl]

/-- C4: within one meta cluster, render clustering scans the visible nodes
(the produced clusters partition them in order); two consecutive nodes lie
in one cluster exactly when the pixel gap between them is under
`stickDistance` and both pixel widths are under `minBlockSize` (adjacent
clusters always fail that test at their boundary); and every finished
cluster starts at its first member, ends at its last member's end, with
`duration = lastNode.end - firstNode.start`. -/
theorem clusterizeFlatTree_merge_spec (mc : MetaClusterizedFlatTreeNode)
    (zoom start end_ stickDistance minBlockSize : ℚ)
    (hw : ∀ n ∈ mc.nodes, n.end_ = n.source.start + n.source.duration) :
    ((clusterizeFlatTree [mc] zoom start end_ stickDistance minBlockSize).map
        (fun c => c.nodes)).flatten =
      mc.nodes.filter (fun n => checkNodeTimeboundNesting n start end_) ∧
    (∀ c ∈ clusterizeFlatTree [mc] zoom start end_ stickDistance minBlockSize,
      List.Chain'
        (fun a b => mergeCondition zoom stickDistance minBlockSize a b = true)
        c.nodes) ∧
    List.Chain'
      (fun c1 c2 =>
        BoundaryFail (mergeCondition zoom stickDistance minBlockSize)
          c1.nodes c2.nodes)
      (clusterizeFlatTree [mc] zoom start end_ stickDistance minBlockSize) ∧
    (∀ c ∈ clusterizeFlatTree [mc] zoom start end_ stickDistance minBlockSize,
      ∀ f l, c.nodes.head? = some f → c.nodes.getLast? = some l →
        c.start = f.source.start ∧ c.end_ = l.end_ ∧
          c.duration = l.end_ - f.source.start) := by
  obtain ⟨hflat, hmem, hbd⟩ :=
    groupRuns_spec (mergeCondition zoom stickDistance minBlockSize)
      (mc.nodes.filter (fun n => checkNodeTimeboundNesting n start end_))
  rw [clusterizeFlatTree_single]
  refine ⟨?_, ?_, ?_, ?_⟩
  · rw [List.map_map]
    have hid : ((fun c : ClusterizedFlatTreeNode => c.nodes) ∘ mkClusterNode) =
        fun r : List FlatTreeNode => r := funext fun r => rfl
    rw [hid, List.map_id']
    exact hflat
  · intro c hc
    simp only [List.mem_map] at hc
    obtain ⟨r, hr, rfl⟩ := hc
    exact (hmem r hr).2
  · rw [List.chain'_map]
    exact hbd
  · intro c hc f l hf hl
    simp only [List.mem_map] at hc
    obtain ⟨r, hr, rfl⟩ := hc
    rw [mkClusterNode_nodes] at hf hl
    obtain ⟨e1, e2, e3⟩ := mkClusterNode_fields r f l hf hl
    have hl_mc : l ∈ mc.nodes := by
      have h1 : l ∈ r := List.mem_of_mem_getLast? hl
      have h2 := List.mem_flatten_of_mem hr h1
      rw [hflat] at h2
      exact List.mem_of_mem_filter h2
    have hwl := hw l hl_mc
    refine ⟨e1, ?_, ?_⟩
    · rw [e3, e1, e2, hwl]; ring
    · rw [e2, hwl]

/-- C7: meta-clustering partitions the level-sorted flat sequence (the
cluster node lists concatenate, in order, to the input); adjacent nodes
inside one cluster share a level and satisfy the equivalence predicate;
and at every boundary between consecutive clusters the pair fails that
test, so no two adjacent equal-level equivalent nodes are split apart. -/
theorem metaClusterizeFlatTree_partition (flat : List FlatTreeNode)
    (condition : FlatTreeNode → FlatTreeNode → Bool) :
    ((metaClusterizeFlatTree flat condition).map (fun mc => mc.nodes)).flatten =
        flat ∧
    (∀ mc ∈ metaClusterizeFlatTree flat condition,
      List.Chain' (fun a b => a.level = b.level ∧ condition a b = true)
        mc.nodes) ∧
    List.Chain'
      (fun m1 m2 => ∀ a b, m1.nodes.getLast? = some a →
        m2.nodes.head? = some b →
        ¬(a.level = b.level ∧ condition a b = true))
      (metaClusterizeFlatTree flat condition) := by
  obtain ⟨hflat, hmem, hbd⟩ := groupRuns_spec
    (fun lastNode node => lastNode.level == node.level && condition lastNode node)
    flat
  have hfilter :
      (groupRuns
          (fun lastNode node =>
            lastNode.level == node.level && condition lastNode node)
          flat).filter (fun nodes => !nodes.isEmpty) =
        groupRuns
          (fun lastNode node =>
            lastNode.level == node.level && condition lastNode node) flat := by
    apply List.filter_eq_self.mpr
    intro r hr
    simpa [List.isEmpty_iff] using (hmem r hr).1
  unfold metaClusterizeFlatTree
  rw [hfilter]
  refine ⟨?_, ?_, ?_⟩
  · rw [List.map_map]
    have hid : ((fun mc : MetaClusterizedFlatTreeNode => mc.nodes) ∘
        fun nodes => MetaClusterizedFlatTreeNode.mk nodes) =
        fun r : List FlatTreeNode => r := funext fun r => rfl
    rw [hid, List.map_id']
    exact hflat
  · intro mc hmc
    simp only [List.mem_map] at hmc
    obtain ⟨r, hr, rfl⟩ := hmc
    refine List.Chain'.imp ?_ (hmem r hr).2
    intro a b hab
    simpa using hab
  · rw [List.chain'_map]
    refine List.Chain'.imp ?_ hbd
    intro r1 r2 h12 a b ha hb hcontra
    have hfalse : (a.level == b.level && condition a b) = false :=
      h12 a b ha hb
    rw [hcontra.1] at hfalse
    simp [hcontra.2] at hfalse 

theorem walk_depth (forest : List FlameChartNode) :
    ∀ (ts : List FlameChartNode) (lvl : ℕ),
      (∀ t ∈ ts, TreeAtDepth forest lvl t) →
      ∀ q ∈ walk ts lvl, ∃ t, TreeAtDepth forest q.2 t ∧ t.data = q.1 := by
  intro ts lvl
  induction ts, lvl using walk.induct with
  | case1 lvl =>
    intro _ q hq
    simp [walk] at hq
  | case2 d cs rest level ih1 ih2 =>
    intro h q hq
    simp only [walk, List.mem_cons, List.mem_append] at hq
    rcases hq with rfl | hq | hq
    · exact ⟨FlameChartNode.node d cs, h _ (List.mem_cons_self _ _), rfl⟩
    · refine ih1 ?_ q hq
      intro c hc
      exact TreeAtDepth.child (h _ (List.mem_cons_self _ _)) hc
    · refine ih2 ?_ q hq
      intro t ht
      exact h t (List.mem_cons_of_mem _ ht)

/-- C6: for any input forest, the flattened output is sorted by
`(level, source.start)`, and every output node's `level` is the depth (from
a root) at which a tree node carrying its `source` data sits. -/
theorem flatTree_sorted_and_level (forest : List FlameChartNode) :
    List.Sorted flatTreeOrder (flatTree forest) ∧
      ∀ n ∈ flatTree forest,
        ∃ t, TreeAtDepth forest n.level t ∧ t.data = n.source := by
  constructor
  · exact List.sorted_insertionSort flatTreeOrder _
  · intro n hn
    unfold flatTree at hn
    have hperm := List.perm_insertionSort flatTreeOrder
      (((walk forest 0).enum).map fun p =>
        ({ source := p.2.1, end_ := p.2.1.start + p.2.1.duration,
           level := p.2.2, index := p.1 } : FlatTreeNode))
    have hn' := hperm.subset hn
    simp only [List.mem_map] at hn'
    obtain ⟨p, hp, rfl⟩ := hn'
    have hpw : p.2 ∈ walk forest 0 := by
      have := List.enum_map_snd (walk forest 0)
      rw [← this]
      exact List.mem_map_of_mem _ hp
    obtain ⟨t, ht, hd⟩ := walk_depth forest forest 0
      (fun t ht => TreeAtDepth.root ht) p.2 hpw
    exact ⟨t, ht, hd⟩

/-- C1 (amended): re-clusterization drops every cluster that does not
overlap the visible window; an overlapping cluster is kept as-is exactly
when its on-screen width `duration * zoom` does NOT exceed
`MIN_CLUSTER_SIZE` (the source tests `<=`), and otherwise render
clustering is re-run over just that cluster's member nodes. -/
theorem reclusterize_keeps_small_clusters
    (clusteredFlatTree : List ClusterizedFlatTreeNode)
    (zoom start end_ stickDistance minBlockSize : ℚ) :
    reclusterizeClusteredFlatTree clusteredFlatTree zoom start end_
        stickDistance minBlockSize =
      clusteredFlatTree.flatMap fun cluster =>
        if checkClusterTimeboundNesting cluster start end_ then
          if cluster.duration * zoom ≤ MIN_CLUSTER_SIZE then [cluster]
          else
            clusterizeFlatTree [{ nodes := cluster.nodes }] zoom start end_
              stickDistance minBlockSize
        else [] := by
  suffices h : ∀ init : List ClusterizedFlatTreeNode,
      clusteredFlatTree.foldl
        (fun acc cluster =>
          if checkClusterTimeboundNesting cluster start end_ then
            if cluster.duration * zoom ≤ MIN_CLUSTER_SIZE then acc ++ [cluster]
            else acc ++ clusterizeFlatTree [{ nodes := cluster.nodes }] zoom
              start end_ stickDistance minBlockSize
          else acc)
        init =
        init ++ clusteredFlatTree.flatMap fun cluster =>
          if checkClusterTimeboundNesting cluster start end_ then
            if cluster.duration * zoom ≤ MIN_CLUSTER_SIZE then [cluster]
            else clusterizeFlatTree [{ nodes := cluster.nodes }] zoom start
              end_ stickDistance minBlockSize
          else [] by
    simpa [reclusterizeClusteredFlatTree] using h []
  induction clusteredFlatTree with
  | nil => intro init; simp
  | cons c cs ih =>
    intro init
    by_cases h1 : checkClusterTimeboundNesting c start end_
    · by_cases h2 : c.duration * zoom ≤ MIN_CLUSTER_SIZE <;>
        simp [h1, h2, ih]
    · simp [h1, ih]

/-- C2 (amended): composing `pixelToTime` with `timeToPosition` yields
`t - positionX` (not `t`: `pixelToTime` converts widths, not absolute
coordinates), and `timeToPosition` is strictly increasing in the time for
any positive zoom. -/
theorem pixelToTime_timeToPosition (st : BasicRenderEngineState)
    (t t1 t2 : ℚ) (hz : 0 < st.zoom) (h12 : t1 < t2) :
    pixelToTime st (timeToPosition st t) = t - st.positionX ∧
      timeToPosition st t1 < timeToPosition st t2 := by
  constructor
  · unfold pixelToTime timeToPosition
    field_simp
    ring
  · unfold timeToPosition
    have := mul_lt_mul_of_pos_right h12 hz
    linarith

/-- C2 counterexample: at `positionX = 1`, `zoom = 2`, the round trip of
`t = 3` (inside `[min, max]`) returns `2`, not `3`. -/
theorem pixelToTime_timeToPosition_not_id :
    0 < stC2.zoom ∧ stC2.min ≤ 3 ∧ (3 : ℚ) ≤ stC2.max ∧
      pixelToTime stC2 (timeToPosition stC2 3) ≠ 3 := by
  norm_num [stC2, pixelToTime, timeToPosition]

/-- C2 witness: the amended statement at the concrete viewport `stC2`,
`t = 3`, `t1 = 0`, `t2 = 1`. -/
theorem pixelToTime_timeToPosition_witness :
    pixelToTime stC2 (timeToPosition stC2 3) = 3 - stC2.positionX ∧
      timeToPosition stC2 0 < timeToPosition stC2 1 :=
  pixelToTime_timeToPosition stC2 3 0 1 (by norm_num [stC2]) (by norm_num)

/-- C5: on a viewport whose window fits the extent
(`width / zoom <= max - min`), any pan lands `positionX` inside
`[min, max - width/zoom]`; the full delta is applied when the moved
window stays in range, otherwise the position clamps to `min` or to
`max - width/zoom`. -/
theorem tryToChangePosition_clamps (st : BasicRenderEngineState) (delta : ℚ)
    (hfit : st.width / st.zoom ≤ st.max - st.min) :
    (st.min ≤ (tryToChangePosition st delta).positionX ∧
      (tryToChangePosition st delta).positionX ≤
        st.max - st.width / st.zoom) ∧
    (st.min ≤ st.positionX + delta ∧
        st.positionX + delta + st.width / st.zoom ≤ st.max →
      (tryToChangePosition st delta).positionX = st.positionX + delta) ∧
    (st.positionX + delta < st.min →
      (tryToChangePosition st delta).positionX = st.min) ∧
    (st.max < st.positionX + delta + st.width / st.zoom →
      (tryToChangePosition st delta).positionX =
        st.max - st.width / st.zoom) := by
  simp only [tryToChangePosition, setPositionX, getRealView]
  by_cases h1 : st.positionX + delta + st.width / st.zoom ≤ st.max ∧
      st.positionX + delta ≥ st.min
  · rw [if_pos h1]
    refine ⟨⟨h1.2, by linarith [h1.1]⟩, fun _ => rfl, ?_, ?_⟩
    · intro hc
      exact ((by linarith [h1.2] : False)).elim
    · intro hc
      exact ((by linarith [h1.1] : False)).elim
  · rw [if_neg h1]
    by_cases h2 : st.positionX + delta ≤ st.min
    · rw [if_pos h2]
      refine ⟨⟨le_refl _, by linarith⟩, ?_, fun _ => rfl, ?_⟩
      · intro hc
        exact absurd ⟨hc.2, hc.1⟩ h1
      · intro hc
        exact ((by linarith : False)).elim
    · rw [if_neg h2]
      push_neg at h2
      by_cases h3 : st.positionX + delta + st.width / st.zoom ≥ st.max
      · rw [if_pos h3]
        refine ⟨⟨by linarith, le_refl _⟩, ?_, ?_, fun _ => rfl⟩
        · intro hc
          exact absurd ⟨hc.2, hc.1⟩ h1
        · intro hc
          exact ((by linarith : False)).elim
      · exfalso
        push_neg at h3
        exact h1 ⟨h3.le, h2.le⟩

/-- C5 witness: panning the concrete viewport `stC5` by `1000` clamps to
`max - width/zoom = 90`. -/
theorem tryToChangePosition_clamps_witness :
    (stC5.min ≤ (tryToChangePosition stC5 1000).positionX ∧
      (tryToChangePosition stC5 1000).positionX ≤
        stC5.max - stC5.width / stC5.zoom) ∧
    (stC5.min ≤ stC5.positionX + 1000 ∧
        stC5.positionX + 1000 + stC5.width / stC5.zoom ≤ stC5.max →
      (tryToChangePosition stC5 1000).positionX = stC5.positionX + 1000) ∧
    (stC5.positionX + 1000 < stC5.min →
      (tryToChangePosition stC5 1000).positionX = stC5.min) ∧
    (stC5.max < stC5.positionX + 1000 + stC5.width / stC5.zoom →
      (tryToChangePosition stC5 1000).positionX =
        stC5.max - stC5.width / stC5.zoom) :=
  tryToChangePosition_clamps stC5 1000 (by norm_num [stC5])

/-- C1 counterexample: `clusterAB` overlaps the window `[0, 100]` and its
on-screen width `30 * 1` exceeds `MIN_CLUSTER_SIZE = 2.25`, yet it is NOT
kept as-is (the claim says width exceeding the threshold keeps the
cluster unchanged): re-clusterization splits it in two. -/
theorem reclusterize_splits_wide_cluster :
    checkClusterTimeboundNesting clusterAB 0 100 = true ∧
      MIN_CLUSTER_SIZE < clusterAB.duration * 1 ∧
      reclusterizeClusteredFlatTree [clusterAB] 1 0 100 STICK_DISTANCE
          MIN_BLOCK_SIZE ≠
        [clusterAB] := by
  refine ⟨?_, ?_, ?_⟩
  · norm_num [checkClusterTimeboundNesting, clusterAB, mkClusterNode,
      calcClusterDuration, nodeA, nodeB]
  · norm_num [MIN_CLUSTER_SIZE, MIN_BLOCK_SIZE, STICK_DISTANCE, clusterAB,
      mkClusterNode, calcClusterDuration, nodeA, nodeB]
  · norm_num [reclusterizeClusteredFlatTree, clusterAB, mkClusterNode,
      calcClusterDuration, nodeA, nodeB, checkClusterTimeboundNesting,
      checkNodeTimeboundNesting, clusterizeFlatTree, groupStep,
      mergeCondition, MIN_CLUSTER_SIZE, MIN_BLOCK_SIZE, STICK_DISTANCE,
      defaultFlatTreeNode]

/-- C1 witness: the amended characterisation applied to the singleton
cluster list `[clusterAB]` for the window `[0, 100]` at zoom `1`. -/
theorem reclusterize_keeps_small_clusters_witness :
    reclusterizeClusteredFlatTree [clusterAB] 1 0 100 STICK_DISTANCE
        MIN_BLOCK_SIZE =
      [clusterAB].flatMap fun cluster =>
        if checkClusterTimeboundNesting cluster 0 100 then
          if cluster.duration * 1 ≤ MIN_CLUSTER_SIZE then [cluster]
          else
            clusterizeFlatTree [{ nodes := cluster.nodes }] 1 0 100
              STICK_DISTANCE MIN_BLOCK_SIZE
        else [] :=
  reclusterize_keeps_small_clusters [clusterAB] 1 0 100 STICK_DISTANCE
    MIN_BLOCK_SIZE

/-- C3 (amended): `setData` performs no validation: it unconditionally
replaces the held forest and every derived structure with values computed
from the new input, and its result carries no failure channel. -/
theorem setData_accepts_all_inputs (st : FlameChartPluginState)
    (data : List FlameChartNode) (renderEngine : BasicRenderEngineState) :
    (FlameChartPlugin.setData st data renderEngine).data = data ∧
      (FlameChartPlugin.setData st data renderEngine).flatTree =
        flatTree data ∧
      (FlameChartPlugin.setData st data renderEngine).min =
        (getFlatTreeMinMax (flatTree data)).1 ∧
      (FlameChartPlugin.setData st data renderEngine).max =
        (getFlatTreeMinMax (flatTree data)).2 := by
  refine ⟨rfl, rfl, rfl, rfl⟩

/-- C3 counterexample: an interval with negative duration is not rejected;
`setData` swaps the held (well-formed) data set for the malformed one, so
the data set is not left unchanged and no validation failure occurs. -/
theorem setData_swallows_negative_duration :
    badNode.data.duration < 0 ∧
      (FlameChartPlugin.setData
          (FlameChartPlugin.setData emptyPluginState [goodNode] stC2)
          [badNode] stC2).flatTree =
        flatTree [badNode] ∧
      (FlameChartPlugin.setData
          (FlameChartPlugin.setData emptyPluginState [goodNode] stC2)
          [badNode] stC2).flatTree ≠
        (FlameChartPlugin.setData emptyPluginState [goodNode] stC2).flatTree := by
  refine ⟨by norm_num [badNode, FlameChartNode.data], rfl, ?_⟩
  norm_num [FlameChartPlugin.setData, FlameChartPlugin.reset,
    FlameChartPlugin.initData, FlameChartPlugin.parseData, flatTree, walk,
    badNode, goodNode, List.insertionSort, List.orderedInsert]

/-- C3 witness: the amended statement at the malformed input `[badNode]`. -/
theorem setData_accepts_all_inputs_witness :
    (FlameChartPlugin.setData emptyPluginState [badNode] stC2).data =
        [badNode] ∧
      (FlameChartPlugin.setData emptyPluginState [badNode] stC2).flatTree =
        flatTree [badNode] ∧
      (FlameChartPlugin.setData emptyPluginState [badNode] stC2).min =
        (getFlatTreeMinMax (flatTree [badNode])).1 ∧
      (FlameChartPlugin.setData emptyPluginState [badNode] stC2).max =
        (getFlatTreeMinMax (flatTree [badNode])).2 :=
  setData_accepts_all_inputs emptyPluginState [badNode] stC2

/-- C8: `RenderEngine.setZoom` fails (returning `false` and leaving the
state untouched) exactly when the grid accuracy has reached
`MAX_ACCURACY` and the request zooms in; any zoom-out request, and any
request while the accuracy is under the floor, is accepted and stores the
requested zoom. -/
theorem RenderEngine_setZoom_guard (st : RenderEngineState) (zoom : ℚ) :
    ((RenderEngine.setZoom st zoom).1 = false ↔
      MAX_ACCURACY ≤ getAccuracy st ∧ st.base.zoom < zoom) ∧
    ((RenderEngine.setZoom st zoom).1 = false →
      (RenderEngine.setZoom st zoom).2 = st) ∧
    ((RenderEngine.setZoom st zoom).1 = true →
      (RenderEngine.setZoom st zoom).2.base.zoom = zoom) := by
  unfold RenderEngine.setZoom
  by_cases h : getAccuracy st < MAX_ACCURACY ∨ zoom ≤ st.base.zoom
  · rw [if_pos h]
    refine ⟨⟨fun hc => absurd hc (by simp), fun hc => ?_⟩, by simp, fun _ => rfl⟩
    rcases h with h | h
    · exact absurd hc.1 (by omega)
    · exact absurd hc.2 (not_lt.mpr h)
  · rw [if_neg h]
    push_neg at h
    exact ⟨⟨fun _ => ⟨h.1, h.2⟩, fun _ => rfl⟩, fun _ => rfl,
      fun hc => absurd hc (by simp)⟩

/-- C8 witness: the guard characterisation at the concrete engine `stC9`
(accuracy `0`) and requested zoom `20`. -/
theorem RenderEngine_setZoom_guard_witness :
    ((RenderEngine.setZoom stC9 20).1 = false ↔
      MAX_ACCURACY ≤ getAccuracy stC9 ∧ stC9.base.zoom < 20) ∧
    ((RenderEngine.setZoom stC9 20).1 = false →
      (RenderEngine.setZoom stC9 20).2 = stC9) ∧
    ((RenderEngine.setZoom stC9 20).1 = true →
      (RenderEngine.setZoom stC9 20).2.base.zoom = 20) :=
  RenderEngine_setZoom_guard stC9 20

/-- C9 (amended): requesting `setZoom(initialZoom/2)` is a zoom-out, so it
is accepted whenever the current zoom is at least `initialZoom/2`, and the
stored zoom becomes the requested `initialZoom/2` — `setZoom` itself never
clamps to `initialZoom` (only the wheel handler does). -/
theorem setZoom_half_initial_is_stored (st : RenderEngineState)
    (h : getInitialZoom st.base / 2 ≤ st.base.zoom) :
    (RenderEngine.setZoom st (getInitialZoom st.base / 2)).1 = true ∧
      (RenderEngine.setZoom st (getInitialZoom st.base / 2)).2.base.zoom =
        getInitialZoom st.base / 2 := by
  unfold RenderEngine.setZoom
  rw [if_pos (Or.inr h)]
  exact ⟨rfl, rfl⟩

/-- C9 witness: the amended statement at the concrete engine `stC9`. -/
theorem setZoom_half_initial_is_stored_witness :
    (RenderEngine.setZoom stC9 (getInitialZoom stC9.base / 2)).1 = true ∧
      (RenderEngine.setZoom stC9
          (getInitialZoom stC9.base / 2)).2.base.zoom =
        getInitialZoom stC9.base / 2 :=
  setZoom_half_initial_is_stored stC9 (by norm_num [getInitialZoom, stC9])

/-- C9 counterexample: on `stC9`, whose zoom equals `initialZoom = 10`,
`setZoom(initialZoom/2)` yields zoom `5`, not `initialZoom` as claimed. -/
theorem setZoom_half_initial_not_clamped :
    getInitialZoom stC9.base = stC9.base.zoom ∧
      (RenderEngine.setZoom stC9
          (getInitialZoom stC9.base / 2)).2.base.zoom =
        getInitialZoom stC9.base / 2 ∧
      getInitialZoom stC9.base / 2 ≠ getInitialZoom stC9.base := by
  refine ⟨by norm_num [getInitialZoom, stC9], ?_, ?_⟩
  · norm_num [RenderEngine.setZoom, getAccuracy, MAX_ACCURACY, getInitialZoom,
      stC9]
  · norm_num [getInitialZoom, stC9]

theorem hoverEmissions_adj (seq : List (Option HitRegion)) :
    ∀ stored : Option HitRegion,
      List.Chain' adjSameId (hoverEmissions stored seq) ∧
        ∀ s r, stored = some s →
          (hoverEmissions stored seq).head? = some (some r) → r.id = s.id := by
  induction seq with
  | nil =>
    intro stored
    exact ⟨by simp [hoverEmissions], by simp [hoverEmissions]⟩
  | cons resolved rest ih =>
    intro stored
    rcases stored with _ | s <;> rcases resolved with _ | r
    · simp only [hoverEmissions, checkRegionHover, List.nil_append]
      exact ⟨(ih none).1, by simp⟩
    · simp only [hoverEmissions, checkRegionHover, List.cons_append,
        List.nil_append]
      constructor
      · rw [List.chain'_cons']
        refine ⟨?_, (ih (some r)).1⟩
        intro y hy r1 r2 h1 h2
        injection h1 with h1
        subst h1
        subst h2
        simp only [Option.mem_def] at hy
        exact ((ih (some r)).2 r r2 rfl hy).symm
      · intro s' r' hs
        exact absurd hs (by simp)
    · simp only [hoverEmissions, checkRegionHover, List.cons_append,
        List.nil_append]
      constructor
      · rw [List.chain'_cons']
        refine ⟨?_, (ih none).1⟩
        intro y hy r1 r2 h1 h2
        exact absurd h1 (by simp)
      · intro s' r' hs h
        simp only [List.head?_cons, Option.some.injEq] at h
        exact absurd h (by simp)
    · by_cases hid : r.id = s.id
      · have hcheck : checkRegionHover (some s) (some r) = ([some r], some r) := by
          simp [checkRegionHover, hid]
        simp only [hoverEmissions, hcheck, List.cons_append, List.nil_append]
        constructor
        · rw [List.chain'_cons']
          refine ⟨?_, (ih (some r)).1⟩
          intro y hy r1 r2 h1 h2
          injection h1 with h1
          subst h1
          subst h2
          simp only [Option.mem_def] at hy
          exact ((ih (some r)).2 r r2 rfl hy).symm
        · intro s' r' hs h
          simp only [Option.some.injEq] at hs
          subst hs
          simp only [List.head?_cons, Option.some.injEq] at h
          subst h
          exact hid
      · have hcheck : checkRegionHover (some s) (some r) =
            ([none, some r], some r) := by
          simp [checkRegionHover, hid]
        simp only [hoverEmissions, hcheck, List.cons_append, List.nil_append]
        constructor
        · rw [List.chain'_cons', List.chain'_cons']
          refine ⟨by simp [adjSameId], ?_, (ih (some r)).1⟩
          intro y hy r1 r2 h1 h2
          injection h1 with h1
          subst h1
          subst h2
          simp only [Option.mem_def] at hy
          exact ((ih (some r)).2 r r2 rfl hy).symm
        · intro s' r' hs h
          simp only [List.head?_cons, Option.some.injEq] at h
          exact absurd h (by simp)

/-- C10 (amended): a `hover(null)` is emitted before `hover(newRegion)`
exactly when the stored and freshly resolved regions carry different `id`
fields — and that `id` is the owning panel-instance id, not a per-region
identity; consequently, in any emission stream, two adjacent non-null
hover events always carry equal instance ids (repeated hovers of one
region, or of two different regions of the same panel instance, arrive
back-to-back without an intervening clear). -/
theorem checkRegionHover_id_discipline :
    (∀ s r : HitRegion, r.id ≠ s.id →
      checkRegionHover (some s) (some r) = ([none, some r], some r)) ∧
    ∀ seq : List (Option HitRegion),
      List.Chain' adjSameId (hoverEmissions none seq) := by
  constructor
  · intro s r h
    simp [checkRegionHover, h]
  · intro seq
    exact (hoverEmissions_adj seq none).1

/-- C10 counterexample: two distinct regions of the same panel instance
(equal `id` field) are hovered in succession; the emitted stream is
`[hover(regionA), hover(regionB)]` with no `hover(null)` in between, even
though the resolved region's identity changed. -/
theorem hover_consecutive_nonnull :
    regionA ≠ regionB ∧
      hoverEmissions none [some regionA, some regionB] =
        [some regionA, some regionB] := by
  exact ⟨by decide, rfl⟩

/-- C10 witness: the amended statement applied to the cross-instance pair
(`regionA` of instance 1, `regionC` of instance 2) and to a concrete
emission sequence. -/
theorem checkRegionHover_id_discipline_witness :
    checkRegionHover (some regionA) (some regionC) =
        ([none, some regionC], some regionC) ∧
      List.Chain' adjSameId
        (hoverEmissions none [some regionA, some regionB]) :=
  ⟨checkRegionHover_id_discipline.1 regionA regionC (by decide),
    checkRegionHover_id_discipline.2 [some regionA, some regionB]⟩

/-- C4 witness: the clustering characterisation at the concrete meta
cluster `mcW`, zoom `1`, window `[0, 100]` and the default thresholds. -/
theorem clusterizeFlatTree_merge_spec_witness :
    ((clusterizeFlatTree [mcW] 1 0 100 STICK_DISTANCE MIN_BLOCK_SIZE).map
        (fun c => c.nodes)).flatten =
      mcW.nodes.filter (fun n => checkNodeTimeboundNesting n 0 100) ∧
    (∀ c ∈ clusterizeFlatTree [mcW] 1 0 100 STICK_DISTANCE MIN_BLOCK_SIZE,
      List.Chain'
        (fun a b => mergeCondition 1 STICK_DISTANCE MIN_BLOCK_SIZE a b = true)
        c.nodes) ∧
    List.Chain'
      (fun c1 c2 =>
        BoundaryFail (mergeCondition 1 STICK_DISTANCE MIN_BLOCK_SIZE)
          c1.nodes c2.nodes)
      (clusterizeFlatTree [mcW] 1 0 100 STICK_DISTANCE MIN_BLOCK_SIZE) ∧
    (∀ c ∈ clusterizeFlatTree [mcW] 1 0 100 STICK_DISTANCE MIN_BLOCK_SIZE,
      ∀ f l, c.nodes.head? = some f → c.nodes.getLast? = some l →
        c.start = f.source.start ∧ c.end_ = l.end_ ∧
          c.duration = l.end_ - f.source.start) :=
  clusterizeFlatTree_merge_spec mcW 1 0 100 STICK_DISTANCE MIN_BLOCK_SIZE
    (by
      intro n hn
      simp only [mcW, List.mem_cons, List.not_mem_nil, or_false] at hn
      rcases hn with rfl | rfl <;> norm_num [nodeA, nodeB])

/-- C6 witness: the flattening properties at the concrete two-level
forest `forestW`. -/
theorem flatTree_sorted_and_level_witness :
    List.Sorted flatTreeOrder (flatTree forestW) ∧
      ∀ n ∈ flatTree forestW,
        ∃ t, TreeAtDepth forestW n.level t ∧ t.data = n.source :=
  flatTree_sorted_and_level forestW

/-- C7 witness: the partition properties at the concrete flat sequence
`[nodeA, nodeB]` with the default equivalence condition. -/
theorem metaClusterizeFlatTree_partition_witness :
    ((metaClusterizeFlatTree [nodeA, nodeB]
          defaultClusterizeCondition).map (fun mc => mc.nodes)).flatten =
        [nodeA, nodeB] ∧
    (∀ mc ∈ metaClusterizeFlatTree [nodeA, nodeB] defaultClusterizeCondition,
      List.Chain'
        (fun a b => a.level = b.level ∧ defaultClusterizeCondition a b = true)
        mc.nodes) ∧
    List.Chain'
      (fun m1 m2 => ∀ a b, m1.nodes.getLast? = some a →
        m2.nodes.head? = some b →
        ¬(a.level = b.level ∧ defaultClusterizeCondition a b = true))
      (metaClusterizeFlatTree [nodeA, nodeB] defaultClusterizeCondition) :=
  metaClusterizeFlatTree_partition [nodeA, nodeB] defaultClusterizeCondition
